import Mathlib

/-!
Shallow embedding of the AI-Quiz attempt lifecycle, scoring and analytics
code (`models/quiz_attempt.py`, `models/quiz.py`, `services/quiz_service.py`,
`services/analytics_service.py`, `app/routes/quiz.py`).

Python dictionaries become Lean structures, the MongoDB collections become
lists inside a `DBState` record, timestamps are abstract naturals passed in
as a `now` parameter, and Python floats are modelled as exact rationals.
-/

namespace QuizApp

/-- A Python value used as a question index.  JSON object keys are strings;
`save_progress` parses them with `int(k)` and on failure keeps the raw key,
so an index stored in an answer record may be an integer or a string.
Python `==` between an int and a str is `False`, which matches the derived
decidable equality on this sum. -/
inductive PyKey where
  | int (i : ℤ)
  | str (s : String)
deriving DecidableEq, Repr

/-- One entry of `QuizAttempt.answers` (a Python dict with exactly the keys
`question_index`, `selected_answer`, `is_correct`, `answered_at`). -/
structure AnswerRecord where
  question_index : PyKey
  selected_answer : String
  is_correct : Option Bool
  answered_at : ℕ
deriving DecidableEq, Repr

/-- The `QuizAttempt` model.  `id` is the Mongo `_id`, assigned by the store
on insert; `0` stands for the not-yet-assigned id of a fresh in-memory
attempt. -/
structure QuizAttempt where
  id : ℕ
  user_id : String
  quiz_date : String
  answers : List AnswerRecord
  score : ℤ
  total_questions : ℤ
  percentage : ℚ
  attempted_at : ℕ
  completed_at : Option ℕ
  is_completed : Bool
  auto_saved : Bool
deriving DecidableEq, Repr

/-- `QuizAttempt.__init__`. -/
def QuizAttempt.init (user_id quiz_date : String) (now : ℕ) : QuizAttempt :=
  { id := 0
    user_id := user_id
    quiz_date := quiz_date
    answers := []
    score := 0
    total_questions := 0
    percentage := 0
    attempted_at := now
    completed_at := none
    is_completed := false
    auto_saved := false }

/-- A question document; only `answer` is consulted by the embedded
operations (`submit_quiz` builds the answer key from it). -/
structure Question where
  text : String
  options : List (String × String)
  answer : String
deriving DecidableEq, Repr

/-- The `Quiz` model. -/
structure Quiz where
  quiz_date : String
  questions : List Question
  total_questions : ℤ
deriving DecidableEq, Repr

/-- `Quiz.get_total_questions`. -/
def Quiz.get_total_questions (q : Quiz) : ℤ := q.questions.length

/-- A user document, as consumed by the analytics user lookup. -/
structure UserInfo where
  user_id : String
  name : String
  email : String
deriving DecidableEq, Repr

/-- Replace the first element satisfying `p` by its image under `f`
(Python mutates the dict returned by a linear search in place). -/
def updateFirst (p : α → Bool) (f : α → α) : List α → List α
  | [] => []
  | x :: xs => if p x then f x :: xs else x :: updateFirst p f xs

/-- `QuizAttempt.get_answer_for_question`: linear search for the first
record with the given index. -/
def get_answer_for_question (answers : List AnswerRecord) (qi : PyKey) :
    Option AnswerRecord :=
  answers.find? (fun r => decide (r.question_index = qi))

/-- List-level body of `QuizAttempt.add_answer`: update the first record
with index `qi` in place, else append a new record. -/
def upsertAnswer (answers : List AnswerRecord) (qi : PyKey)
    (sel : String) (isc : Option Bool) (now : ℕ) : List AnswerRecord :=
  if (get_answer_for_question answers qi).isSome then
    updateFirst (fun r => decide (r.question_index = qi))
      (fun r => { r with selected_answer := sel, is_correct := isc, answered_at := now })
      answers
  else
    answers ++ [{ question_index := qi, selected_answer := sel,
                  is_correct := isc, answered_at := now }]

/-- `QuizAttempt.add_answer` (the default `is_correct=None` is passed
explicitly as `isc`). -/
def add_answer (a : QuizAttempt) (qi : PyKey) (sel : String)
    (isc : Option Bool) (now : ℕ) : QuizAttempt :=
  { a with answers := upsertAnswer a.answers qi sel isc now }

/-- Round-half-even to an integer, the behaviour of Python's `round`. -/
def rhe (q : ℚ) : ℤ :=
  if q - ⌊q⌋ < 1/2 then ⌊q⌋
  else if 1/2 < q - ⌊q⌋ then ⌊q⌋ + 1
  else if 2 ∣ ⌊q⌋ then ⌊q⌋ else ⌊q⌋ + 1

/-- Python `round(q, 2)`. -/
def round2 (q : ℚ) : ℚ := (rhe (q * 100) : ℚ) / 100

/-- The dict returned by `QuizAttempt.calculate_score`. -/
structure ScoreResult where
  score : ℤ
  total_questions : ℤ
  percentage : ℚ
deriving DecidableEq, Repr

/-- Set the `is_correct` flag of the first record with integer index `qi`
(the in-place mutation of the record found by `get_answer_for_question`
inside the scoring loop). -/
def scoreUpd (answers : List AnswerRecord) (qi : ℤ) (b : Bool) :
    List AnswerRecord :=
  updateFirst (fun r => decide (r.question_index = PyKey.int qi))
    (fun r => { r with is_correct := some b }) answers

/-- One iteration of the `for question_index, correct_answer in
correct_answers.items()` loop of `calculate_score`. -/
def scoreStep (acc : List AnswerRecord × ℤ) (kv : ℤ × String) :
    List AnswerRecord × ℤ :=
  match get_answer_for_question acc.1 (PyKey.int kv.1) with
  | none => acc
  | some r =>
    if r.selected_answer = kv.2 then (scoreUpd acc.1 kv.1 true, acc.2 + 1)
    else (scoreUpd acc.1 kv.1 false, acc.2)

/-- `QuizAttempt.calculate_score`.  The answer key `Dict[int, str]` is a
list of (index, correct option) pairs in dict iteration order.  Returns the
mutated attempt (unrounded `percentage` field) and the returned dict
(whose `percentage` entry is `round(…, 2)`). -/
def calculate_score (a : QuizAttempt) (key : List (ℤ × String)) :
    QuizAttempt × ScoreResult :=
  let total : ℤ := key.length
  let p := key.foldl scoreStep (a.answers, 0)
  let pct : ℚ := if 0 < total then (p.2 : ℚ) / (total : ℚ) * 100 else 0
  ({ a with answers := p.1, score := p.2, total_questions := total,
            percentage := pct },
   { score := p.2, total_questions := total, percentage := round2 pct })

/-- `QuizAttempt.complete_attempt`. -/
def complete_attempt (a : QuizAttempt) (now : ℕ) : QuizAttempt :=
  { a with is_completed := true, completed_at := some now }

/-- `QuizAttempt.get_answers_summary`: a list of dicts with exactly the
four `AnswerRecord` fields, i.e. the answers list itself in this model. -/
def get_answers_summary (a : QuizAttempt) : List AnswerRecord := a.answers

/-- The MongoDB state seen by the services: the `quizzes`, `attempts` and
`users` collections in store order, the connectivity flag, and the next
`_id` the store will assign. -/
structure DBState where
  connected : Bool
  quizzes : List Quiz
  attempts : List QuizAttempt
  users : List UserInfo
  next_id : ℕ
deriving DecidableEq, Repr

/-- `QuizService.get_quiz_by_date`: `find_one({"quiz_date": quiz_date})`. -/
def get_quiz_by_date (s : DBState) (d : String) : Option Quiz :=
  if s.connected then s.quizzes.find? (fun q => decide (q.quiz_date = d))
  else none

/-- `QuizService.get_user_attempt`:
`find_one({"user_id": user_id, "quiz_date": quiz_date})`. -/
def get_user_attempt (s : DBState) (u d : String) : Option QuizAttempt :=
  if s.connected then
    s.attempts.find? (fun a => decide (a.user_id = u ∧ a.quiz_date = d))
  else none

/-- Mongo `update_one`: patch the first matching document; the returned
natural is `matched_count` (0 or 1). -/
def update_one (l : List α) (p : α → Bool) (f : α → α) : ℕ × List α :=
  if (l.find? p).isSome then (1, updateFirst p f l) else (0, l)

/-- Mongo `insert_one` on the attempts collection: the unique index on
`(user_id, quiz_date)` raises a duplicate-key error when a document with
the same pair is already stored; otherwise the document is appended with a
fresh `_id`. -/
def insert_one_attempt (s : DBState) (a : QuizAttempt) :
    Except String (DBState × ℕ) :=
  if (s.attempts.find? (fun b =>
        decide (b.user_id = a.user_id ∧ b.quiz_date = a.quiz_date))).isSome then
    .error "E11000 duplicate key error"
  else
    .ok ({ s with attempts := s.attempts ++ [{ a with id := s.next_id }],
                  next_id := s.next_id + 1 }, s.next_id)

/-- `QuizService.can_user_attempt_quiz`. -/
def can_user_attempt_quiz (s : DBState) (u d : String) : Bool × String :=
  if s.connected = false then (false, "Database not connected")
  else
    match get_quiz_by_date s d with
    | none => (false, s!"No quiz available for date {d}")
    | some _ =>
      match get_user_attempt s u d with
      | some a =>
        if a.is_completed then (false, "You have already completed this quiz")
        else (true, "User can attempt quiz")
      | none => (true, "User can attempt quiz")

/-- The create-and-insert tail of `QuizService.start_quiz_attempt`
(everything from `attempt = QuizAttempt(...)` on): reads the quiz from
`sRead`, inserts into `sIns`.  The wildcard `except` clause maps a raised
store error `e` to `(False, f"Error starting attempt: {e}", None)`. -/
def startInsert (sRead sIns : DBState) (u d : String) (now : ℕ) :
    Bool × String × Option QuizAttempt × DBState :=
  let attempt := QuizAttempt.init u d now
  let attempt :=
    match get_quiz_by_date sRead d with
    | some qz => { attempt with total_questions := qz.get_total_questions }
    | none => attempt
  match insert_one_attempt sIns attempt with
  | .ok (s2, newId) =>
    (true, "New attempt started", some { attempt with id := newId }, s2)
  | .error e => (false, s!"Error starting attempt: {e}", none, sIns)

/-- `QuizService.start_quiz_attempt`.  The reads (availability check,
existing-attempt lookup, quiz lookup) run against `sRead`, while the final
`insert_one` runs against `sIns`; a sequential call has `sIns = sRead`, and
a concurrent create that lands between the read and the insert is modelled
by an `sIns` that already holds an attempt for `(u, d)`. -/
def start_quiz_attempt (sRead sIns : DBState) (u d : String) (now : ℕ) :
    Bool × String × Option QuizAttempt × DBState :=
  let can := can_user_attempt_quiz sRead u d
  if can.1 = false then (false, can.2, none, sIns)
  else if sRead.connected = false then (false, "Database not connected", none, sIns)
  else
    match get_user_attempt sRead u d with
    | some a =>
      if a.is_completed = false then (true, "Resuming existing attempt", some a, sIns)
      else startInsert sRead sIns u d now
    | none => startInsert sRead sIns u d now

/-- `QuizService.save_answer`.  Returns the `(success, message)` pair of
the Python function together with the resulting store state. -/
def save_answer (s : DBState) (u d : String) (qi : PyKey) (sel : String)
    (now : ℕ) : Bool × String × DBState :=
  if s.connected = false then (false, "Database not connected", s)
  else
    match get_user_attempt s u d with
    | none => (false, "No active attempt found", s)
    | some a =>
      if a.is_completed then (false, "Quiz already completed", s)
      else
        let a2 := add_answer a qi sel none now
        let r := update_one s.attempts (fun b => decide (b.id = a.id))
          (fun b => { b with answers := a2.answers, auto_saved := true })
        if r.1 = 0 then (false, s!"No attempt found with id {a.id}", s)
        else (true, "Answer saved successfully", { s with attempts := r.2 })

/-- The answer key `submit_quiz` builds:
`{i: question['answer'] for i, question in enumerate(quiz.questions)}`. -/
def answerKey (qz : Quiz) : List (ℤ × String) :=
  qz.questions.enum.map (fun p => ((p.1 : ℤ), p.2.answer))

/-- `QuizService.submit_quiz`.  Returns `(success, message, score_result)`
and the resulting store state. -/
def submit_quiz (s : DBState) (u d : String) (now : ℕ) :
    Bool × String × Option ScoreResult × DBState :=
  if s.connected = false then (false, "Database not connected", none, s)
  else
    match get_user_attempt s u d with
    | none => (false, "No active attempt found", none, s)
    | some a =>
      if a.is_completed then (false, "Quiz already completed", none, s)
      else
        match get_quiz_by_date s d with
        | none => (false, "Quiz not found", none, s)
        | some qz =>
          let sr := calculate_score a (answerKey qz)
          let a3 := complete_attempt sr.1 now
          let r := update_one s.attempts (fun b => decide (b.id = a.id))
            (fun b => { b with score := a3.score,
                               total_questions := a3.total_questions,
                               percentage := a3.percentage,
                               is_completed := true,
                               completed_at := a3.completed_at,
                               answers := get_answers_summary a3 })
          if r.1 = 0 then (false, s!"Failed to update attempt {a.id}", none, s)
          else (true, "Quiz submitted successfully", some sr.2,
                { s with attempts := r.2 })

/-- The numeric value of a decimal digit character. -/
def charDigit? (c : Char) : Option ℕ :=
  if '0' ≤ c ∧ c ≤ '9' then some (c.toNat - '0'.toNat) else none

/-- Accumulate a decimal digit string into a natural number; `none` as
soon as a non-digit appears. -/
def digitsToNat (acc : ℕ) : List Char → Option ℕ
  | [] => some acc
  | c :: cs =>
    match charDigit? c with
    | some d => digitsToNat (acc * 10 + d) cs
    | none => none

/-- Python `int(k)` on a JSON object key: an optional minus sign followed
by at least one decimal digit (leading plus, whitespace and digit-group
underscores are not modelled; the app's keys are canonical digit
strings). -/
def parseIntStr (s : String) : Option ℤ :=
  match s.data with
  | [] => none
  | '-' :: cs =>
    match cs with
    | [] => none
    | _ => (digitsToNat 0 cs).map (fun n => -(n : ℤ))
  | cs => (digitsToNat 0 cs).map (fun n => (n : ℤ))

/-- `int(k)` on a JSON object key, as used by `save_progress`; on failure
the raw key is kept (`q_index = k`). -/
def parseProgressKey (k : String) : PyKey :=
  match parseIntStr k with
  | some i => PyKey.int i
  | none => PyKey.str k

/-- One iteration of the `for k, v in answers.items()` loop of the
`save_progress` route: a `None` value is skipped, otherwise `save_answer`
runs and the saved counter is incremented on success. -/
def progressStep (u d : String) (now : ℕ) (acc : ℕ × DBState)
    (kv : String × Option String) : ℕ × DBState :=
  match kv.2 with
  | none => acc
  | some v =>
    let r := save_answer acc.2 u d (parseProgressKey kv.1) v now
    if r.1 then (acc.1 + 1, r.2.2) else (acc.1, r.2.2)

/-- The `save_progress` route body after payload validation: the returned
triple is the response message, the `saved_count`, and the store state. -/
def save_progress (s : DBState) (u d : String)
    (answers : List (String × Option String)) (now : ℕ) :
    String × ℕ × DBState :=
  if answers.isEmpty then ("No answers to save", 0, s)
  else
    let r := answers.foldl (progressStep u d now) (0, s)
    let n := r.1
    (s!"Progress saved ({n} answers)", n, r.2)

/-- The `score_ranges` dict of `AnalyticsService.get_quiz_analytics`: the
five fixed percentage bands. -/
structure ScoreDist where
  band90to100 : ℕ
  band80to89 : ℕ
  band70to79 : ℕ
  band60to69 : ℕ
  below60 : ℕ
deriving DecidableEq, Repr

/-- Build the score distribution from the completed attempts'
percentages, with the exact comparisons of the source. -/
def score_ranges (percentages : List ℚ) : ScoreDist :=
  { band90to100 := percentages.countP (fun p => decide (90 ≤ p))
    band80to89 := percentages.countP (fun p => decide (80 ≤ p ∧ p < 90))
    band70to79 := percentages.countP (fun p => decide (70 ≤ p ∧ p < 80))
    band60to69 := percentages.countP (fun p => decide (60 ≤ p ∧ p < 70))
    below60 := percentages.countP (fun p => decide (p < 60)) }

/-- One row of the `all_participants` ranking. -/
structure Participant where
  rank : ℕ
  name : String
  email : String
  score : ℤ
  total_questions : ℤ
  percentage : ℚ
  completed_at : Option ℕ
deriving DecidableEq, Repr

/-- The Python `user_lookup` dict comprehension
`{user['user_id']: user for user in users}` (a later duplicate overrides
an earlier one, hence the reverse search). -/
def lookupUser (users : List UserInfo) (uid : String) : Option UserInfo :=
  users.reverse.find? (fun u => decide (u.user_id = uid))

/-- `max(scores)` over a nonempty Python list (0 on an empty one, a case
the caller never reaches). -/
def listMax (l : List ℤ) : ℤ :=
  match l with
  | [] => 0
  | h :: t => t.foldl max h

/-- `min(scores)` over a nonempty Python list. -/
def listMin (l : List ℤ) : ℤ :=
  match l with
  | [] => 0
  | h :: t => t.foldl min h

/-- The possible shapes of the dict returned by
`AnalyticsService.get_quiz_analytics`: an `{"error": ...}` dict, the
no-completed-attempts dict, or the full statistics dict. -/
inductive AnalyticsResult where
  | error (msg : String)
  | noAttempts (quiz_date : String) (total_questions : ℤ)
      (participants_count : ℕ) (message : String)
  | stats (quiz_date : String) (total_questions : ℤ)
      (participants_count : ℕ) (average_score average_percentage : ℚ)
      (highest_score lowest_score : ℤ) (score_distribution : ScoreDist)
      (all_participants : List Participant)
deriving DecidableEq, Repr

/-- Build one `all_participants` entry from a ranked completed attempt. -/
def mkParticipant (users : List UserInfo) (rank : ℕ) (a : QuizAttempt) :
    Participant :=
  let ui := lookupUser users a.user_id
  { rank := rank
    name := (ui.map (fun u => u.name)).getD "Unknown User"
    email := (ui.map (fun u => u.email)).getD "Unknown"
    score := a.score
    total_questions := a.total_questions
    percentage := a.percentage
    completed_at := a.completed_at }

/-- `AnalyticsService.get_quiz_analytics`.  `sorted(..., key=percentage,
reverse=True)` is Python's stable descending sort, i.e. a stable merge
sort with the relation `y.percentage ≤ x.percentage`. -/
def get_quiz_analytics (s : DBState) (d : String) : AnalyticsResult :=
  if s.connected = false then .error "Database not connected"
  else
    match s.quizzes.find? (fun q => decide (q.quiz_date = d)) with
    | none => .error s!"No quiz found for {d}"
    | some qz =>
      let attempts := s.attempts.filter
        (fun a => decide (a.quiz_date = d) && a.is_completed)
      if attempts.isEmpty then
        .noAttempts d qz.total_questions 0 "No completed attempts found"
      else
        let user_ids := attempts.map (fun a => a.user_id)
        let users := s.users.filter (fun u => user_ids.contains u.user_id)
        let scores := attempts.map (fun a => a.score)
        let percentages := attempts.map (fun a => a.percentage)
        let sorted := attempts.mergeSort
          (fun x y => decide (y.percentage ≤ x.percentage))
        let parts := sorted.enum.map
          (fun p => mkParticipant users (p.1 + 1) p.2)
        let n : ℚ := attempts.length
        .stats d qz.total_questions attempts.length
          (round2 ((scores.map (fun z => (z : ℚ))).sum / n))
          (round2 (percentages.sum / n))
          (listMax scores) (listMin scores)
          (score_ranges percentages) parts

/-- `matchesKey answers (i, opt)` reproduces the test of the scoring loop:
the first stored record with integer index `i` exists and selected exactly
the key's option `opt`. -/
def matchesKey (answers : List AnswerRecord) (kv : ℤ × String) : Bool :=
  match get_answer_for_question answers (PyKey.int kv.1) with
  | some r => decide (r.selected_answer = kv.2)
  | none => false

/-- The three questions of the spec scenario quiz for `2025-01-15`,
with answer key `{0: "C", 1: "B", 2: "B"}`. -/
def sampleQuestions : List Question :=
  [⟨"q0", [("A", "a0"), ("B", "b0"), ("C", "c0")], "C"⟩,
   ⟨"q1", [("A", "a1"), ("B", "b1"), ("C", "c1")], "B"⟩,
   ⟨"q2", [("A", "a2"), ("B", "b2"), ("C", "c2")], "B"⟩]

/-- The scenario quiz document. -/
def sampleQuiz : Quiz := ⟨"2025-01-15", sampleQuestions, 3⟩

/-- The scenario answer key as a (index, correct option) list. -/
def sampleKey : List (ℤ × String) := [(0, "C"), (1, "B"), (2, "B")]

/-- The scenario submission `{0: "C", 1: "A", 2: "B"}`. -/
def sampleAnswers : List AnswerRecord :=
  [⟨.int 0, "C", none, 1⟩, ⟨.int 1, "A", none, 2⟩, ⟨.int 2, "B", none, 3⟩]

/-- An in-progress attempt holding the scenario submission. -/
def sampleAttempt : QuizAttempt :=
  { id := 7, user_id := "u1", quiz_date := "2025-01-15",
    answers := sampleAnswers, score := 0, total_questions := 3,
    percentage := 0, attempted_at := 1, completed_at := none,
    is_completed := false, auto_saved := false }

/-- A connected store holding the scenario quiz and the in-progress
attempt. -/
def sampleState : DBState := ⟨true, [sampleQuiz], [sampleAttempt], [], 8⟩

/-- A completed attempt for the scenario quiz (score already recorded). -/
def doneAttempt : QuizAttempt :=
  { id := 3, user_id := "u2", quiz_date := "2025-01-15",
    answers := [⟨.int 0, "C", some true, 1⟩], score := 1,
    total_questions := 3, percentage := 100/3, attempted_at := 1,
    completed_at := some 2, is_completed := true, auto_saved := true }

/-- A connected store whose only attempt is already completed. -/
def doneState : DBState := ⟨true, [sampleQuiz], [doneAttempt], [], 9⟩

/-- The store as seen by the reading half of a racing `start_quiz_attempt`
call: the quiz exists and no attempt is stored yet. -/
def raceReadState : DBState := ⟨true, [sampleQuiz], [], [], 0⟩

/-- The `$set` patch `submit_quiz` writes to the matched attempt document:
score, total questions, the (unrounded) percentage, the completion flag
and timestamp, and the scored answers array, all taken from the scored
attempt `res`. -/
def submitPatch (res : QuizAttempt) (now : ℕ) (b : QuizAttempt) :
    QuizAttempt :=
  { b with score := res.score, total_questions := res.total_questions,
           percentage := res.percentage, is_completed := true,
           completed_at := some now, answers := res.answers }

end QuizApp

namespace QuizApp

theorem map_updateFirst {p : α → Bool} {f : α → α} (g : α → β)
    (h : ∀ x, p x = true → g (f x) = g x) :
    ∀ l : List α, (updateFirst p f l).map g = l.map g := by
  intro l
  induction l with
  | nil => rfl
  | cons x t ih =>
    by_cases hx : p x = true
    · simp [updateFirst, hx, h x hx]
    · simp [updateFirst, hx, ih]

theorem filter_updateFirst {p q : α → Bool} {f : α → α}
    (h : ∀ x, p x = true → q x = false ∧ q (f x) = false) :
    ∀ l : List α, (updateFirst p f l).filter q = l.filter q := by
  intro l
  induction l with
  | nil => rfl
  | cons x t ih =>
    by_cases hx : p x = true
    · simp [updateFirst, hx, List.filter_cons, (h x hx).1, (h x hx).2]
    · simp [updateFirst, hx, List.filter_cons, ih]

theorem countP_updateFirst {p q : α → Bool} {f : α → α}
    (h : ∀ x, p x = true → q (f x) = q x) :
    ∀ l : List α, (updateFirst p f l).countP q = l.countP q := by
  intro l
  induction l with
  | nil => rfl
  | cons x t ih =>
    by_cases hx : p x = true
    · simp [updateFirst, hx, List.countP_cons, h x hx]
    · simp [updateFirst, hx, List.countP_cons, ih]

theorem find?_updateFirst_nodup {l : List α} {P : α → Bool} {a : α}
    (idOf : α → ℕ) (f : α → α)
    (hnd : (l.map idOf).Nodup) (hfind : l.find? P = some a)
    (hPfa : P (f a) = true) :
    (updateFirst (fun b => decide (idOf b = idOf a)) f l).find? P
      = some (f a) := by
  induction l with
  | nil => simp at hfind
  | cons x t ih =>
    by_cases hx : P x = true
    · rw [List.find?_cons_of_pos _ hx] at hfind
      injection hfind with hxa
      subst hxa
      simp [updateFirst, List.find?_cons_of_pos _ hPfa]
    · rw [List.find?_cons_of_neg _ hx] at hfind
      rw [List.map_cons, List.nodup_cons] at hnd
      have hat : a ∈ t := List.mem_of_find?_eq_some hfind
      have hid : ¬ idOf x = idOf a := by
        intro hcontra
        exact hnd.1 (hcontra ▸ List.mem_map_of_mem idOf hat)
      simp only [updateFirst, decide_eq_true_eq, hid, if_false]
      rw [List.find?_cons_of_neg _ hx]
      exact ih hnd.2 hfind

theorem find?_filter {p q : α → Bool} (h : ∀ x, p x = true → q x = true) :
    ∀ l : List α, (l.filter q).find? p = l.find? p := by
  intro l
  induction l with
  | nil => rfl
  | cons x t ih =>
    by_cases hx : p x = true
    · have hq := h x hx
      simp [List.filter_cons, hq, List.find?_cons_of_pos _ hx]
    · by_cases hq : q x = true
      · simp only [List.filter_cons, hq, if_true]
        rw [List.find?_cons_of_neg _ hx, List.find?_cons_of_neg _ hx, ih]
      · rw [List.find?_cons_of_neg _ hx, ← ih]
        simp [List.filter_cons, hq]

theorem matchesKey_updateFirst {p : AnswerRecord → Bool}
    {f : AnswerRecord → AnswerRecord}
    (h1 : ∀ r, (f r).question_index = r.question_index)
    (h2 : ∀ r, (f r).selected_answer = r.selected_answer) :
    ∀ (l : List AnswerRecord) (kv : ℤ × String),
      matchesKey (updateFirst p f l) kv = matchesKey l kv := by
  intro l kv
  induction l with
  | nil => rfl
  | cons r t ih =>
    by_cases hp : p r = true
    · simp only [updateFirst, hp, if_true]
      by_cases hP : r.question_index = PyKey.int kv.1
      · have hPf : (f r).question_index = PyKey.int kv.1 := by rw [h1]; exact hP
        simp [matchesKey, get_answer_for_question, List.find?_cons, hP, hPf, h2]
      · have hPf : ¬ (f r).question_index = PyKey.int kv.1 := by rw [h1]; exact hP
        simp [matchesKey, get_answer_for_question, List.find?_cons, hP, hPf]
    · simp only [updateFirst, hp, if_false]
      by_cases hP : r.question_index = PyKey.int kv.1
      · simp [matchesKey, get_answer_for_question, List.find?_cons, hP]
      · simpa [matchesKey, get_answer_for_question, List.find?_cons, hP] using ih

theorem matchesKey_scoreUpd (l : List AnswerRecord) (qi : ℤ) (b : Bool)
    (kv : ℤ × String) : matchesKey (scoreUpd l qi b) kv = matchesKey l kv := by
  simp only [scoreUpd]
  exact @matchesKey_updateFirst
    (fun r => decide (r.question_index = PyKey.int qi))
    (fun r => { r with is_correct := some b })
    (fun _ => rfl) (fun _ => rfl) l kv

theorem countP_matchesKey_scoreUpd (t : List (ℤ × String))
    (l : List AnswerRecord) (qi : ℤ) (b : Bool) :
    t.countP (matchesKey (scoreUpd l qi b)) = t.countP (matchesKey l) :=
  List.countP_congr (fun kv _ => by rw [matchesKey_scoreUpd])

theorem scoreLoop_score (key : List (ℤ × String)) :
    ∀ (l : List AnswerRecord) (sc : ℤ),
      (key.foldl scoreStep (l, sc)).2 = sc + key.countP (matchesKey l) := by
  induction key with
  | nil => intro l sc; simp
  | cons kv t ih =>
    intro l sc
    rw [List.foldl_cons, List.countP_cons]
    cases hf : get_answer_for_question l (PyKey.int kv.1) with
    | none =>
      have hm : matchesKey l kv = false := by simp [matchesKey, hf]
      have hstep : scoreStep (l, sc) kv = (l, sc) := by simp [scoreStep, hf]
      rw [hstep, ih l sc, hm]
      simp
    | some r =>
      by_cases hsel : r.selected_answer = kv.2
      · have hm : matchesKey l kv = true := by simp [matchesKey, hf, hsel]
        have hstep : scoreStep (l, sc) kv = (scoreUpd l kv.1 true, sc + 1) := by
          simp [scoreStep, hf, hsel]
        rw [hstep, ih, hm, countP_matchesKey_scoreUpd]
        simp
        ring
      · have hm : matchesKey l kv = false := by simp [matchesKey, hf, hsel]
        have hstep : scoreStep (l, sc) kv = (scoreUpd l kv.1 false, sc) := by
          simp [scoreStep, hf, hsel]
        rw [hstep, ih, hm, countP_matchesKey_scoreUpd]
        simp

theorem scoreLoop_filter (key : List (ℤ × String)) (q : AnswerRecord → Bool)
    (hq : ∀ kv ∈ key, ∀ r : AnswerRecord,
      r.question_index = PyKey.int kv.1 → q r = false)
    (hqf : ∀ (r : AnswerRecord) (b : Bool),
      q { r with is_correct := some b } = q r) :
    ∀ (l : List AnswerRecord) (sc : ℤ),
      ((key.foldl scoreStep (l, sc)).1).filter q = l.filter q := by
  induction key with
  | nil => intro l sc; simp
  | cons kv t ih =>
    intro l sc
    rw [List.foldl_cons]
    have ht : ∀ kv2 ∈ t, ∀ r : AnswerRecord,
        r.question_index = PyKey.int kv2.1 → q r = false :=
      fun kv2 h2 => hq kv2 (List.mem_cons_of_mem kv h2)
    have hupd : ∀ b : Bool, (scoreUpd l kv.1 b).filter q = l.filter q := by
      intro b
      refine filter_updateFirst (fun x hx => ?_) l
      have hxi : x.question_index = PyKey.int kv.1 := by simpa using hx
      exact ⟨hq kv (List.mem_cons_self kv t) x hxi,
        by rw [hqf]; exact hq kv (List.mem_cons_self kv t) x hxi⟩
    cases hf : get_answer_for_question l (PyKey.int kv.1) with
    | none =>
      have hstep : scoreStep (l, sc) kv = (l, sc) := by simp [scoreStep, hf]
      rw [hstep]; exact ih ht l sc
    | some r =>
      by_cases hsel : r.selected_answer = kv.2
      · have hstep : scoreStep (l, sc) kv = (scoreUpd l kv.1 true, sc + 1) := by
          simp [scoreStep, hf, hsel]
        rw [hstep, ih ht, hupd]
      · have hstep : scoreStep (l, sc) kv = (scoreUpd l kv.1 false, sc) := by
          simp [scoreStep, hf, hsel]
        rw [hstep, ih ht, hupd]

theorem matchesKey_eq_exists {l : List AnswerRecord}
    (hnd : (l.map (fun r => r.question_index)).Nodup) (kv : ℤ × String) :
    matchesKey l kv
      = decide (∃ r ∈ l, r.question_index = PyKey.int kv.1 ∧
          r.selected_answer = kv.2) := by
  rcases hmb : matchesKey l kv with _ | _
  · rcases hf : get_answer_for_question l (PyKey.int kv.1) with _ | r
    · rw [get_answer_for_question, List.find?_eq_none] at hf
      symm
      simp only [decide_eq_false_iff_not]
      rintro ⟨r, hr, hri, _⟩
      exact absurd hri (by simpa using hf r hr)
    · have hsel : ¬ r.selected_answer = kv.2 := by
        intro hcontra
        rw [matchesKey, hf] at hmb
        simp [hcontra] at hmb
      have hri : r.question_index = PyKey.int kv.1 := by
        simpa using List.find?_some hf
      have hrm : r ∈ l := List.mem_of_find?_eq_some hf
      symm
      simp only [decide_eq_false_iff_not]
      rintro ⟨r2, hr2, hr2i, hr2sel⟩
      have : r2 = r := List.inj_on_of_nodup_map hnd hr2 hrm (by rw [hr2i, hri])
      exact hsel (this ▸ hr2sel)
  · rcases hf : get_answer_for_question l (PyKey.int kv.1) with _ | r
    · rw [matchesKey, hf] at hmb; exact absurd hmb (by simp)
    · have hsel : r.selected_answer = kv.2 := by
        rw [matchesKey, hf] at hmb; simpa using hmb
      have hri : r.question_index = PyKey.int kv.1 := by
        simpa using List.find?_some hf
      have hrm : r ∈ l := List.mem_of_find?_eq_some hf
      symm
      simpa using ⟨r, hrm, hri, hsel⟩

theorem get_answer_eq_find (l : List AnswerRecord) (qi : PyKey) :
    get_answer_for_question l qi
      = l.find? (fun r => decide (r.question_index = qi)) := rfl

theorem countP_upsert_updateFirst (l : List AnswerRecord) (qi : PyKey)
    (sel : String) (isc : Option Bool) (now : ℕ) :
    (updateFirst (fun r => decide (r.question_index = qi))
        (fun r => { r with selected_answer := sel, is_correct := isc,
                           answered_at := now }) l).countP
        (fun r => decide (r.question_index = qi))
      = l.countP (fun r => decide (r.question_index = qi)) :=
  @countP_updateFirst _ (fun r => decide (r.question_index = qi))
    (fun r => decide (r.question_index = qi))
    (fun r => { r with selected_answer := sel, is_correct := isc,
                       answered_at := now })
    (fun _ _ => rfl) l

theorem countP_upsertAnswer (l : List AnswerRecord) (qi : PyKey)
    (sel : String) (isc : Option Bool) (now : ℕ)
    (h : l.countP (fun r => decide (r.question_index = qi)) ≤ 1) :
    (upsertAnswer l qi sel isc now).countP
      (fun r => decide (r.question_index = qi)) = 1 := by
  by_cases hf : (get_answer_for_question l qi).isSome
  · rw [upsertAnswer, if_pos hf, countP_upsert_updateFirst]
    rcases Option.isSome_iff_exists.mp hf with ⟨r, hr⟩
    rw [get_answer_eq_find] at hr
    have hrm : r ∈ l := List.mem_of_find?_eq_some hr
    have hri := List.find?_some hr
    have hpos : 0 < l.countP (fun r => decide (r.question_index = qi)) :=
      List.countP_pos_iff.mpr ⟨r, hrm, hri⟩
    omega
  · rw [upsertAnswer, if_neg hf]
    have hnone : get_answer_for_question l qi = none :=
      Option.not_isSome_iff_eq_none.mp hf
    rw [get_answer_eq_find] at hnone
    have hz : l.countP (fun r => decide (r.question_index = qi)) = 0 :=
      List.countP_eq_zero.mpr (List.find?_eq_none.mp hnone)
    rw [List.countP_append, hz]
    simp

theorem filter_upsertAnswer (l : List AnswerRecord) (qi : PyKey)
    (sel : String) (isc : Option Bool) (now : ℕ) (q : AnswerRecord → Bool)
    (hq : ∀ r : AnswerRecord, r.question_index = qi → q r = false) :
    (upsertAnswer l qi sel isc now).filter q = l.filter q := by
  by_cases hf : (get_answer_for_question l qi).isSome
  · rw [upsertAnswer, if_pos hf]
    refine filter_updateFirst (fun x hx => ?_) l
    have hxi : x.question_index = qi := by simpa using hx
    exact ⟨hq x hxi, hq _ hxi⟩
  · rw [upsertAnswer, if_neg hf, List.filter_append]
    have hnew : q (AnswerRecord.mk qi sel isc now) = false := hq _ rfl
    simp [List.filter_cons, hnew]

theorem exists_upsertAnswer (l : List AnswerRecord) (qi : PyKey)
    (sel : String) (isc : Option Bool) (now : ℕ) :
    ∃ r ∈ upsertAnswer l qi sel isc now, r.question_index = qi := by
  by_cases hf : (get_answer_for_question l qi).isSome
  · rcases Option.isSome_iff_exists.mp hf with ⟨r, hr⟩
    rw [get_answer_eq_find] at hr
    have hrm : r ∈ l := List.mem_of_find?_eq_some hr
    have hri := List.find?_some hr
    have hcount : 0 < (upsertAnswer l qi sel isc now).countP
        (fun r => decide (r.question_index = qi)) := by
      rw [upsertAnswer, if_pos hf, countP_upsert_updateFirst]
      exact List.countP_pos_iff.mpr ⟨r, hrm, hri⟩
    rcases List.countP_pos_iff.mp hcount with ⟨r2, hr2, hp2⟩
    exact ⟨r2, hr2, by simpa using hp2⟩
  · refine ⟨AnswerRecord.mk qi sel isc now, ?_, rfl⟩
    rw [upsertAnswer, if_neg hf]
    simp

theorem get_user_attempt_connected {s : DBState} {u d : String}
    {a : QuizAttempt} (h : get_user_attempt s u d = some a) :
    s.connected = true := by
  by_cases hc : s.connected = true
  · exact hc
  · rw [get_user_attempt] at h
    simp [hc] at h

theorem get_user_attempt_find {s : DBState} {u d : String}
    {a : QuizAttempt} (h : get_user_attempt s u d = some a) :
    s.attempts.find?
      (fun b => decide (b.user_id = u ∧ b.quiz_date = d)) = some a := by
  have hc := get_user_attempt_connected h
  rw [get_user_attempt, if_pos (by simpa using hc)] at h
  exact h

theorem get_user_attempt_key {s : DBState} {u d : String}
    {a : QuizAttempt} (h : get_user_attempt s u d = some a) :
    a.user_id = u ∧ a.quiz_date = d := by
  simpa using List.find?_some (get_user_attempt_find h)

theorem save_answer_success (s : DBState) (u d : String) (qi : PyKey)
    (sel : String) (now : ℕ) (a : QuizAttempt)
    (ha : get_user_attempt s u d = some a) (hc : a.is_completed = false) :
    save_answer s u d qi sel now =
      (true, "Answer saved successfully",
       { s with attempts := (updateFirst (fun b => decide (b.id = a.id))
           (fun b => { b with answers := upsertAnswer a.answers qi sel none now,
                              auto_saved := true }) s.attempts) }) := by
  have hconn := get_user_attempt_connected ha
  have hfind := get_user_attempt_find ha
  have hmem : a ∈ s.attempts := List.mem_of_find?_eq_some hfind
  have hidSome : (s.attempts.find? (fun b => decide (b.id = a.id))).isSome :=
    List.find?_isSome.mpr ⟨a, hmem, by simp⟩
  rw [save_answer]
  rw [if_neg (by simp [hconn])]
  rw [ha]
  simp only [hc, Bool.false_eq_true, if_false, add_answer, update_one,
    if_pos hidSome]
  simp

theorem get_user_attempt_after_patch (s : DBState) (u d : String)
    (a : QuizAttempt) (f : QuizAttempt → QuizAttempt)
    (hnd : (s.attempts.map QuizAttempt.id).Nodup)
    (ha : get_user_attempt s u d = some a)
    (hfu : (f a).user_id = a.user_id) (hfd : (f a).quiz_date = a.quiz_date) :
    get_user_attempt
      { s with attempts := (updateFirst (fun b => decide (b.id = a.id)) f
          s.attempts) } u d = some (f a) := by
  have hconn := get_user_attempt_connected ha
  have hfind := get_user_attempt_find ha
  have hkey := get_user_attempt_key ha
  rw [get_user_attempt]
  rw [if_pos (by simpa using hconn)]
  exact find?_updateFirst_nodup QuizAttempt.id f hnd hfind
    (by simp [hfu, hfd, hkey.1, hkey.2])

theorem submit_quiz_success (s : DBState) (u d : String) (now : ℕ)
    (a : QuizAttempt) (qz : Quiz)
    (ha : get_user_attempt s u d = some a) (hc : a.is_completed = false)
    (hq : get_quiz_by_date s d = some qz) :
    submit_quiz s u d now =
      (true, "Quiz submitted successfully",
       some (calculate_score a (answerKey qz)).2,
       { s with attempts := (updateFirst (fun b => decide (b.id = a.id))
           (submitPatch (calculate_score a (answerKey qz)).1 now)
           s.attempts) }) := by
  have hconn := get_user_attempt_connected ha
  have hfind := get_user_attempt_find ha
  have hmem : a ∈ s.attempts := List.mem_of_find?_eq_some hfind
  have hidSome : (s.attempts.find? (fun b => decide (b.id = a.id))).isSome :=
    List.find?_isSome.mpr ⟨a, hmem, by simp⟩
  rw [submit_quiz]
  rw [if_neg (by simp [hconn])]
  rw [ha]
  simp only [hc, Bool.false_eq_true, if_false, hq]
  simp only [complete_attempt, get_answers_summary, update_one,
    if_pos hidSome]
  simp
  rfl

theorem band_ite (p : ℚ) :
    ((if decide (90 ≤ p) = true then (1 : ℕ) else 0)
      + (if decide (80 ≤ p ∧ p < 90) = true then 1 else 0)
      + (if decide (70 ≤ p ∧ p < 80) = true then 1 else 0)
      + (if decide (60 ≤ p ∧ p < 70) = true then 1 else 0)
      + (if decide (p < 60) = true then 1 else 0)) = 1 := by
  by_cases h90 : 90 ≤ p
  · have h1 : ¬ (80 ≤ p ∧ p < 90) := fun h => by linarith [h.2]
    have h2 : ¬ (70 ≤ p ∧ p < 80) := fun h => by linarith [h.2]
    have h3 : ¬ (60 ≤ p ∧ p < 70) := fun h => by linarith [h.2]
    have h4 : ¬ p < 60 := by linarith
    simp [h90, h1, h2, h3, h4]
  · by_cases h80 : 80 ≤ p
    · have h1 : 80 ≤ p ∧ p < 90 := ⟨h80, lt_of_not_le h90⟩
      have h2 : ¬ (70 ≤ p ∧ p < 80) := fun h => by linarith [h.2]
      have h3 : ¬ (60 ≤ p ∧ p < 70) := fun h => by linarith [h.2]
      have h4 : ¬ p < 60 := by linarith
      simp [h90, h1, h2, h3, h4]
    · by_cases h70 : 70 ≤ p
      · have h2 : 70 ≤ p ∧ p < 80 := ⟨h70, lt_of_not_le h80⟩
        have h3 : ¬ (60 ≤ p ∧ p < 70) := fun h => by linarith [h.2]
        have h4 : ¬ p < 60 := by linarith
        simp [h90, h80, h2, h3, h4]
      · by_cases h60 : 60 ≤ p
        · have h3 : 60 ≤ p ∧ p < 70 := ⟨h60, lt_of_not_le h70⟩
          have h4 : ¬ p < 60 := by linarith
          simp [h90, h80, h70, h3, h4]
        · have h4 : p < 60 := lt_of_not_le h60
          simp [h90, h80, h70, h60, h4]

/-- C9: every percentage falls into exactly one of the five fixed bands
`p ≥ 90`, `80 ≤ p < 90`, `70 ≤ p < 80`, `60 ≤ p < 70`, `p < 60`, so the
five bucket counts of `score_ranges` sum to the number of completed
attempts the distribution was built from. -/
theorem c9_score_distribution_partition (ps : List ℚ) :
    ((score_ranges ps).band90to100 + (score_ranges ps).band80to89
      + (score_ranges ps).band70to79 + (score_ranges ps).band60to69
      + (score_ranges ps).below60 = ps.length)
    ∧ ∀ p : ℚ, [decide (90 ≤ p), decide (80 ≤ p ∧ p < 90),
        decide (70 ≤ p ∧ p < 80), decide (60 ≤ p ∧ p < 70),
        decide (p < 60)].count true = 1 := by
  constructor
  · induction ps with
    | nil => simp [score_ranges]
    | cons p t ih =>
      simp only [score_ranges, List.countP_cons, List.length_cons] at ih ⊢
      have hb := band_ite p
      linarith
  · intro p
    have hb := band_ite p
    simp only [List.count_cons, List.count_nil, beq_iff_eq]
    linarith

/-- C2: a completed attempt is terminal.  When the stored attempt for
`(u, d)` has `is_completed = true`, both `save_answer` and `submit_quiz`
return the failure `"Quiz already completed"` and leave the store state
untouched, so the stored score, percentage and answers are unchanged and a
second submit never re-scores. -/
theorem c2_completed_is_terminal (s : DBState) (u d : String) (qi : PyKey)
    (sel : String) (now : ℕ) (a : QuizAttempt)
    (ha : get_user_attempt s u d = some a) (hc : a.is_completed = true) :
    save_answer s u d qi sel now = (false, "Quiz already completed", s)
    ∧ submit_quiz s u d now = (false, "Quiz already completed", none, s) := by
  have hconn := get_user_attempt_connected ha
  constructor
  · rw [save_answer, if_neg (by simp [hconn]), ha]
    simp [hc]
  · rw [submit_quiz, if_neg (by simp [hconn]), ha]
    simp [hc]

/-- Witness for C2 at a concrete store holding a completed attempt. -/
theorem c2_completed_is_terminal_witness :
    (get_user_attempt doneState "u2" "2025-01-15" = some doneAttempt
      ∧ doneAttempt.is_completed = true)
    ∧ (save_answer doneState "u2" "2025-01-15" (PyKey.int 1) "B" 5
        = (false, "Quiz already completed", doneState)
      ∧ submit_quiz doneState "u2" "2025-01-15" 5
        = (false, "Quiz already completed", none, doneState)) :=
  ⟨⟨rfl, rfl⟩,
   c2_completed_is_terminal doneState "u2" "2025-01-15" (PyKey.int 1) "B" 5
     doneAttempt rfl rfl⟩

/-- C10: scoring tolerates submitted records whose `question_index` is not
an index of the answer key.  Such records are returned unchanged by
`calculate_score` (in particular a `none` `is_correct` flag stays unset),
and the score is the same as if they were not present at all: it equals
the count of key entries whose looked-up record matches, both over the
full answers list and over the sublist of records at key indices. -/
theorem c10_out_of_range_tolerated (a : QuizAttempt) (key : List (ℤ × String)) :
    (calculate_score a key).2.score = key.countP (matchesKey a.answers)
    ∧ ((calculate_score a key).1.answers.filter
        (fun r => !(key.map (fun kv => PyKey.int kv.1)).contains r.question_index)
        = a.answers.filter
        (fun r => !(key.map (fun kv => PyKey.int kv.1)).contains r.question_index))
    ∧ (calculate_score a key).2.score
        = (calculate_score { a with answers := (a.answers.filter
            (fun r => (key.map (fun kv => PyKey.int kv.1)).contains r.question_index)) }
            key).2.score := by
  refine ⟨?_, ?_, ?_⟩
  · have hs : (calculate_score a key).2.score
        = (key.foldl scoreStep (a.answers, 0)).2 := rfl
    rw [hs, scoreLoop_score]
    simp
  · have hs : (calculate_score a key).1.answers
        = (key.foldl scoreStep (a.answers, 0)).1 := rfl
    rw [hs]
    refine scoreLoop_filter key
      (fun r => !(key.map (fun kv => PyKey.int kv.1)).contains r.question_index)
      (fun kv hkv r hr => ?_) (fun r b => by rfl) a.answers 0
    have hmem : PyKey.int kv.1 ∈ key.map (fun kv => PyKey.int kv.1) :=
      List.mem_map_of_mem _ hkv
    simp [hr, hmem]
  · have hs : (calculate_score a key).2.score
        = (key.foldl scoreStep (a.answers, 0)).2 := rfl
    have hs2 : (calculate_score { a with answers := (a.answers.filter
          (fun r => (key.map (fun kv => PyKey.int kv.1)).contains r.question_index)) }
          key).2.score
        = (key.foldl scoreStep (a.answers.filter
            (fun r => (key.map (fun kv => PyKey.int kv.1)).contains r.question_index), 0)).2 := rfl
    rw [hs, hs2, scoreLoop_score, scoreLoop_score]
    have hcong : List.countP (matchesKey a.answers) key
        = List.countP (matchesKey (a.answers.filter
            (fun r => (key.map (fun kv => PyKey.int kv.1)).contains r.question_index))) key := by
      refine List.countP_congr (fun kv hkv => ?_)
      have hfind : (a.answers.filter
          (fun r => (key.map (fun kv => PyKey.int kv.1)).contains r.question_index)).find?
            (fun r => decide (r.question_index = PyKey.int kv.1))
          = a.answers.find? (fun r => decide (r.question_index = PyKey.int kv.1)) := by
        refine find?_filter (fun x hx => ?_) a.answers
        have hxi : x.question_index = PyKey.int kv.1 := by simpa using hx
        have hmem : PyKey.int kv.1 ∈ key.map (fun kv => PyKey.int kv.1) :=
          List.mem_map_of_mem _ hkv
        simp [hxi, hmem]
      unfold matchesKey
      rw [get_answer_eq_find, get_answer_eq_find, hfind]
    rw [hcong]

/-- C1: `calculate_score` returns `score` equal to the number of key
entries whose index has a submitted record with the matching selected
answer (the answers list holds at most one record per index, as the
upsert maintains), `total_questions` equal to the size of the key, the
attempt's `percentage` field equal to `100 * score / totalQuestions`
(0 when the key is empty, with no division-by-zero failure), the returned
`percentage` being that value rounded to 2 decimal places; and on the
scenario key `{0:"C",1:"B",2:"B"}` with submission `{0:"C",1:"A",2:"B"}`
the result is `score=2`, `totalQuestions=3`, `percentage=66.67`. -/
theorem c1_calculate_score :
    (∀ (a : QuizAttempt) (key : List (ℤ × String)),
       (a.answers.map (fun r => r.question_index)).Nodup →
       ((calculate_score a key).2.score
          = key.countP (fun kv => decide (∃ r ∈ a.answers,
              r.question_index = PyKey.int kv.1 ∧ r.selected_answer = kv.2))
        ∧ (calculate_score a key).2.total_questions = (key.length : ℤ)
        ∧ (calculate_score a key).1.percentage
            = (if 0 < (key.length : ℤ)
               then ((calculate_score a key).2.score : ℚ)
                      / ((key.length : ℤ) : ℚ) * 100
               else 0)
        ∧ (calculate_score a key).2.percentage
            = round2 ((calculate_score a key).1.percentage)
        ∧ (key = [] → (calculate_score a key).2.percentage = 0)))
    ∧ (calculate_score sampleAttempt sampleKey).2.score = 2
    ∧ (calculate_score sampleAttempt sampleKey).2.total_questions = 3
    ∧ (calculate_score sampleAttempt sampleKey).2.percentage = 6667/100 := by
  refine ⟨fun a key hnd => ⟨?_, rfl, rfl, rfl, ?_⟩, by decide, by decide, ?_⟩
  · have hs : (calculate_score a key).2.score
        = (key.foldl scoreStep (a.answers, 0)).2 := rfl
    rw [hs, scoreLoop_score]
    have hcong : key.countP (matchesKey a.answers)
        = key.countP (fun kv => decide (∃ r ∈ a.answers,
            r.question_index = PyKey.int kv.1 ∧ r.selected_answer = kv.2)) :=
      List.countP_congr (fun kv _ => by rw [matchesKey_eq_exists hnd])
    rw [hcong]
    simp
  · intro hkey
    subst hkey
    show round2 0 = 0
    norm_num [round2, rhe]
  · show round2 (((2 : ℤ) : ℚ) / (((3 : ℤ)) : ℚ) * 100) = 6667/100
    norm_num [round2, rhe]

/-- Witness for C1: the scenario attempt has one record per index, and the
theorem applied there yields the scenario score. -/
theorem c1_calculate_score_witness :
    (sampleAttempt.answers.map (fun r => r.question_index)).Nodup
    ∧ (calculate_score sampleAttempt sampleKey).2.score
        = sampleKey.countP (fun kv => decide (∃ r ∈ sampleAttempt.answers,
            r.question_index = PyKey.int kv.1 ∧ r.selected_answer = kv.2)) :=
  ⟨by decide,
   (c1_calculate_score.1 sampleAttempt sampleKey (by decide)).1⟩

/-- C3: `save_answer` is an idempotent upsert per question index.  If the
stored in-progress attempt holds at most one record for `qi`, then after
`save_answer` the stored attempt holds exactly one record for `qi` while
the records at every other index are unchanged (replace in place or
append), and a second identical `save_answer` still leaves exactly one
record, not two. -/
theorem c3_save_answer_idempotent_upsert (s : DBState) (u d : String)
    (qi : PyKey) (sel : String) (now now2 : ℕ) (a : QuizAttempt)
    (hnd : (s.attempts.map QuizAttempt.id).Nodup)
    (ha : get_user_attempt s u d = some a)
    (hc : a.is_completed = false)
    (h1 : a.answers.countP (fun r => decide (r.question_index = qi)) ≤ 1) :
    ∃ a1 a2,
      get_user_attempt (save_answer s u d qi sel now).2.2 u d = some a1
      ∧ a1.answers.countP (fun r => decide (r.question_index = qi)) = 1
      ∧ a1.answers.filter (fun r => !decide (r.question_index = qi))
          = a.answers.filter (fun r => !decide (r.question_index = qi))
      ∧ get_user_attempt
          (save_answer (save_answer s u d qi sel now).2.2 u d qi sel now2).2.2
          u d = some a2
      ∧ a2.answers.countP (fun r => decide (r.question_index = qi)) = 1 := by
  have hs1 := save_answer_success s u d qi sel now a ha hc
  have hpatch1 := get_user_attempt_after_patch s u d a
    (fun b => { b with answers := upsertAnswer a.answers qi sel none now,
                       auto_saved := true }) hnd ha rfl rfl
  have hcount1 := countP_upsertAnswer a.answers qi sel none now h1
  refine ⟨{ a with
              answers := upsertAnswer a.answers qi sel none now,
              auto_saved := true },
          { a with
              answers := (upsertAnswer
                (upsertAnswer a.answers qi sel none now) qi sel none now2),
              auto_saved := true }, ?_, hcount1, ?_, ?_, ?_⟩
  · rw [hs1]
    exact hpatch1
  · exact filter_upsertAnswer a.answers qi sel none now _
      (fun r hri => by simp [hri])
  · rw [hs1]
    have hmap : ((updateFirst (fun b => decide (b.id = a.id))
        (fun b => { b with answers := upsertAnswer a.answers qi sel none now,
                           auto_saved := true }) s.attempts)).map
          QuizAttempt.id = s.attempts.map QuizAttempt.id :=
      @map_updateFirst QuizAttempt ℕ (fun b => decide (b.id = a.id))
        (fun b => { b with answers := upsertAnswer a.answers qi sel none now,
                           auto_saved := true })
        QuizAttempt.id (fun x _ => rfl) s.attempts
    have hnd1 : (((updateFirst (fun b => decide (b.id = a.id))
        (fun b => { b with answers := upsertAnswer a.answers qi sel none now,
                           auto_saved := true }) s.attempts)).map
          QuizAttempt.id).Nodup := by
      rw [hmap]
      exact hnd
    have hs2 := save_answer_success _ u d qi sel now2 _ hpatch1 hc
    rw [hs2]
    exact get_user_attempt_after_patch _ u d _
      (fun b => { b with
         answers := upsertAnswer (upsertAnswer a.answers qi sel none now) qi
           sel none now2,
         auto_saved := true }) hnd1 hpatch1 rfl rfl
  · exact countP_upsertAnswer _ qi sel none now2 (le_of_eq hcount1)

/-- Witness for C3 at the scenario store, re-answering question 1. -/
theorem c3_save_answer_idempotent_upsert_witness :
    ((sampleState.attempts.map QuizAttempt.id).Nodup
      ∧ get_user_attempt sampleState "u1" "2025-01-15" = some sampleAttempt
      ∧ sampleAttempt.is_completed = false
      ∧ sampleAttempt.answers.countP
          (fun r => decide (r.question_index = PyKey.int 1)) ≤ 1)
    ∧ ∃ a1 a2,
      get_user_attempt
        (save_answer sampleState "u1" "2025-01-15" (PyKey.int 1) "B" 4).2.2
        "u1" "2025-01-15" = some a1
      ∧ a1.answers.countP (fun r => decide (r.question_index = PyKey.int 1)) = 1
      ∧ a1.answers.filter (fun r => !decide (r.question_index = PyKey.int 1))
          = sampleAttempt.answers.filter
              (fun r => !decide (r.question_index = PyKey.int 1))
      ∧ get_user_attempt
          (save_answer
            (save_answer sampleState "u1" "2025-01-15" (PyKey.int 1) "B" 4).2.2
            "u1" "2025-01-15" (PyKey.int 1) "B" 5).2.2
          "u1" "2025-01-15" = some a2
      ∧ a2.answers.countP (fun r => decide (r.question_index = PyKey.int 1)) = 1 :=
  ⟨⟨by decide, rfl, rfl, by decide⟩,
   c3_save_answer_idempotent_upsert sampleState "u1" "2025-01-15"
     (PyKey.int 1) "B" 4 5 sampleAttempt (by decide) rfl rfl (by decide)⟩

/-- C5: `get_quiz_analytics` distinguishes the two empty cases on a
connected store.  A date with no quiz in the catalog yields the error
result `"No quiz found for <date>"`, while a date whose quiz exists but
has no completed attempt yields the non-error `noAttempts` result with
`participants_count = 0` and the message `"No completed attempts
found"`. -/
theorem c5_analytics_empty_cases (s : DBState) (d : String)
    (hconn : s.connected = true) :
    (s.quizzes.find? (fun q => decide (q.quiz_date = d)) = none →
      get_quiz_analytics s d = .error s!"No quiz found for {d}")
    ∧ (∀ qz : Quiz,
        s.quizzes.find? (fun q => decide (q.quiz_date = d)) = some qz →
        (s.attempts.filter
          (fun a => decide (a.quiz_date = d) && a.is_completed)).isEmpty = true →
        get_quiz_analytics s d
          = .noAttempts d qz.total_questions 0 "No completed attempts found") := by
  constructor
  · intro hq
    rw [get_quiz_analytics, if_neg (by simp [hconn]), hq]
  · intro qz hq hempty
    rw [get_quiz_analytics, if_neg (by simp [hconn]), hq]
    simp only [hempty, if_true]

/-- Witness for C5 at the scenario store, exercising both empty cases. -/
theorem c5_analytics_empty_cases_witness :
    (sampleState.connected = true
      ∧ sampleState.quizzes.find?
          (fun q => decide (q.quiz_date = "2099-01-01")) = none
      ∧ get_quiz_analytics sampleState "2099-01-01"
          = .error "No quiz found for 2099-01-01")
    ∧ (sampleState.quizzes.find?
          (fun q => decide (q.quiz_date = "2025-01-15")) = some sampleQuiz
      ∧ (sampleState.attempts.filter (fun a =>
          decide (a.quiz_date = "2025-01-15") && a.is_completed)).isEmpty = true
      ∧ get_quiz_analytics sampleState "2025-01-15"
          = .noAttempts "2025-01-15" 3 0 "No completed attempts found") := by
  refine ⟨⟨rfl, rfl, ?_⟩, rfl, rfl, ?_⟩
  · rw [(c5_analytics_empty_cases sampleState "2099-01-01" rfl).1 rfl]
    rfl
  · rw [(c5_analytics_empty_cases sampleState "2025-01-15" rfl).2
      sampleQuiz rfl rfl]
    rfl

/-- C6: when the racing insert of `start_quiz_attempt` hits the store's
uniqueness constraint on `(user_id, quiz_date)`, the generic `except`
clause surfaces `"Error starting attempt: <raw store error>"` — not the
"attempt already exists"/resume outcome the design calls for.  The reads
see an empty attempts collection while the insert runs against a store
that already holds the concurrently created attempt. -/
theorem c6_duplicate_key_generic_failure :
    start_quiz_attempt raceReadState sampleState "u1" "2025-01-15" 5
      = (false, "Error starting attempt: E11000 duplicate key error",
         none, sampleState)
    ∧ (start_quiz_attempt raceReadState sampleState "u1" "2025-01-15" 5).2.1
        ≠ "Resuming existing attempt" := by
  constructor
  · rfl
  · have h1 : (start_quiz_attempt raceReadState sampleState
        "u1" "2025-01-15" 5).2.1
        = "Error starting attempt: E11000 duplicate key error" := rfl
    rw [h1]
    decide

/-- Counterexample for C4: submitting the scenario attempt persists the
exact, unrounded percentage `200/3 = 66.666…`, while the rounded value
would be `66.67`; the two differ, so the persisted field is not rounded
to 2 decimal places. -/
theorem c4_persisted_percentage_unrounded :
    (get_user_attempt (submit_quiz sampleState "u1" "2025-01-15" 9).2.2.2
        "u1" "2025-01-15").map (fun b => b.percentage) = some (200/3)
    ∧ round2 (200/3) = 6667/100
    ∧ ((200 : ℚ)/3) ≠ 6667/100 := by
  refine ⟨?_, by norm_num [round2, rhe], by norm_num⟩
  rw [submit_quiz_success sampleState "u1" "2025-01-15" 9 sampleAttempt
    sampleQuiz rfl rfl rfl]
  rw [get_user_attempt_after_patch sampleState "u1" "2025-01-15" sampleAttempt
    (submitPatch (calculate_score sampleAttempt (answerKey sampleQuiz)).1 9)
    (by decide) rfl rfl rfl]
  have hp : (calculate_score sampleAttempt (answerKey sampleQuiz)).1.percentage
      = 200/3 := by
    show ((2 : ℤ) : ℚ) / ((3 : ℤ) : ℚ) * 100 = 200/3
    norm_num
  show some (calculate_score sampleAttempt (answerKey sampleQuiz)).1.percentage
      = some (200/3)
  rw [hp]

/-- C4 (amended): `submit_quiz` persists the exact unrounded percentage
`100 * score / totalQuestions` (0 when the key is empty) in the attempt
document; only the `score_result` it returns carries the percentage
rounded to 2 decimal places. -/
theorem c4_submit_persists_unrounded_returns_rounded (s : DBState)
    (u d : String) (now : ℕ) (a : QuizAttempt) (qz : Quiz)
    (hnd : (s.attempts.map QuizAttempt.id).Nodup)
    (ha : get_user_attempt s u d = some a) (hc : a.is_completed = false)
    (hq : get_quiz_by_date s d = some qz) :
    (get_user_attempt (submit_quiz s u d now).2.2.2 u d).map
        (fun b => b.percentage)
      = some ((calculate_score a (answerKey qz)).1.percentage)
    ∧ (calculate_score a (answerKey qz)).1.percentage
        = (if 0 < ((answerKey qz).length : ℤ)
           then ((calculate_score a (answerKey qz)).2.score : ℚ)
                  / (((answerKey qz).length : ℤ) : ℚ) * 100
           else 0)
    ∧ (submit_quiz s u d now).2.2.1
        = some (calculate_score a (answerKey qz)).2
    ∧ (calculate_score a (answerKey qz)).2.percentage
        = round2 ((calculate_score a (answerKey qz)).1.percentage) := by
  have hsub := submit_quiz_success s u d now a qz ha hc hq
  refine ⟨?_, rfl, ?_, rfl⟩
  · rw [hsub]
    rw [get_user_attempt_after_patch s u d a
      (submitPatch (calculate_score a (answerKey qz)).1 now) hnd ha rfl rfl]
    rfl
  · rw [hsub]

/-- Witness for C4 (amended) at the scenario store. -/
theorem c4_submit_persists_unrounded_witness :
    ((sampleState.attempts.map QuizAttempt.id).Nodup
      ∧ get_user_attempt sampleState "u1" "2025-01-15" = some sampleAttempt
      ∧ sampleAttempt.is_completed = false
      ∧ get_quiz_by_date sampleState "2025-01-15" = some sampleQuiz)
    ∧ (get_user_attempt
        (submit_quiz sampleState "u1" "2025-01-15" 9).2.2.2
        "u1" "2025-01-15").map (fun b => b.percentage)
      = some ((calculate_score sampleAttempt
          (answerKey sampleQuiz)).1.percentage) :=
  ⟨⟨by decide, rfl, rfl, rfl⟩,
   (c4_submit_persists_unrounded_returns_rounded sampleState "u1" "2025-01-15"
     9 sampleAttempt sampleQuiz (by decide) rfl rfl rfl).1⟩

/-- Counterexample for C7: a batch entry whose key `"abc"` is not an
integer is not skipped — `int(k)` fails, the raw string key is passed to
`save_answer`, the record is stored under the string index, and the entry
is counted as successfully saved (count 1, not 0). -/
theorem c7_invalid_key_saved_not_skipped :
    (save_progress sampleState "u1" "2025-01-15" [("abc", some "A")] 4).2.1 = 1
    ∧ (get_user_attempt
        (save_progress sampleState "u1" "2025-01-15" [("abc", some "A")] 4).2.2
        "u1" "2025-01-15").map
        (fun b => b.answers.countP
          (fun r => decide (r.question_index = PyKey.str "abc"))) = some 1 := by
  constructor
  · decide
  · decide

/-- C7 (amended): `save_progress` applies `save_answer` to each entry of
the batch in sequence; an entry with a null value is skipped (it changes
neither the saved count, nor the store, nor the response), entries whose
key fails integer parsing are not skipped but saved under the raw string
key, a failing entry does not abort the rest of the batch, and the
response message reports the count of successfully saved entries. -/
theorem c7_save_progress_best_effort (s : DBState) (u d : String) (now : ℕ)
    (l1 l2 : List (String × Option String)) (k : String)
    (h : l1 ++ l2 ≠ []) :
    save_progress s u d (l1 ++ (k, none) :: l2) now
      = save_progress s u d (l1 ++ l2) now
    ∧ ∀ n : ℕ, (save_progress s u d (l1 ++ l2) now).2.1 = n →
        (save_progress s u d (l1 ++ l2) now).1
          = s!"Progress saved ({n} answers)" := by
  have hne2 : ¬ (l1 ++ l2).isEmpty = true := by
    intro hh
    exact h (List.isEmpty_iff.mp hh)
  have hne1 : ¬ (l1 ++ (k, none) :: l2).isEmpty = true := by simp
  constructor
  · rw [save_progress, save_progress, if_neg hne1, if_neg hne2]
    have hfold : (l1 ++ (k, none) :: l2).foldl (progressStep u d now) (0, s)
        = (l1 ++ l2).foldl (progressStep u d now) (0, s) := by
      rw [List.foldl_append, List.foldl_append, List.foldl_cons]
      rfl
    rw [hfold]
  · intro n hn
    subst hn
    rw [save_progress, if_neg hne2]

/-- Witness for C7 (amended): a null-valued entry in the middle of a
concrete batch leaves the batch result unchanged. -/
theorem c7_save_progress_best_effort_witness :
    ([(("0" : String), some "C")] ++ ([] : List (String × Option String)) ≠ []
    ∧ save_progress sampleState "u1" "2025-01-15"
        ([("0", some "C")] ++ ("x", (none : Option String)) :: []) 4
      = save_progress sampleState "u1" "2025-01-15"
        ([("0", some "C")] ++ []) 4) :=
  ⟨by decide,
   (c7_save_progress_best_effort sampleState "u1" "2025-01-15" 4
     [("0", some "C")] [] "x" (by decide)).1⟩

/-- Counterexample for C8: `save_answer` accepts the out-of-range index
999 for the 3-question scenario quiz, reports success, and the stored
attempt then holds a record with `question_index = 999 ≥ 3`. -/
theorem c8_out_of_range_persisted :
    (save_answer sampleState "u1" "2025-01-15" (PyKey.int 999) "A" 4).1 = true
    ∧ (get_user_attempt (save_answer sampleState "u1" "2025-01-15"
        (PyKey.int 999) "A" 4).2.2 "u1" "2025-01-15").map
        (fun b => b.answers.countP
          (fun r => decide (r.question_index = PyKey.int 999))) = some 1
    ∧ sampleQuiz.get_total_questions = 3 := by
  refine ⟨by decide, by decide, by decide⟩

/-- C8 (amended): `save_answer` performs no range validation at all — for
every index `qi` whatsoever (in particular indices `≥ quiz.totalQuestions`)
it succeeds on an in-progress attempt and persists a record with that
index. -/
theorem c8_save_answer_no_range_validation (s : DBState) (u d : String)
    (qi : PyKey) (sel : String) (now : ℕ) (a : QuizAttempt)
    (hnd : (s.attempts.map QuizAttempt.id).Nodup)
    (ha : get_user_attempt s u d = some a) (hc : a.is_completed = false) :
    (save_answer s u d qi sel now).1 = true
    ∧ ∃ a1, get_user_attempt (save_answer s u d qi sel now).2.2 u d = some a1
        ∧ ∃ r ∈ a1.answers, r.question_index = qi := by
  have hs1 := save_answer_success s u d qi sel now a ha hc
  refine ⟨by rw [hs1], ⟨{ a with
      answers := upsertAnswer a.answers qi sel none now,
      auto_saved := true }, ?_, ?_⟩⟩
  · rw [hs1]
    exact get_user_attempt_after_patch s u d a
      (fun b => { b with answers := upsertAnswer a.answers qi sel none now,
                         auto_saved := true }) hnd ha rfl rfl
  · exact exists_upsertAnswer a.answers qi sel none now

/-- Witness for C8 (amended) at the scenario store with index 999. -/
theorem c8_save_answer_no_range_validation_witness :
    ((sampleState.attempts.map QuizAttempt.id).Nodup
      ∧ get_user_attempt sampleState "u1" "2025-01-15" = some sampleAttempt
      ∧ sampleAttempt.is_completed = false)
    ∧ ((save_answer sampleState "u1" "2025-01-15" (PyKey.int 999) "A" 4).1
        = true
      ∧ ∃ a1, get_user_attempt
          (save_answer sampleState "u1" "2025-01-15" (PyKey.int 999) "A" 4).2.2
          "u1" "2025-01-15" = some a1
        ∧ ∃ r ∈ a1.answers, r.question_index = PyKey.int 999) :=
  ⟨⟨by decide, rfl, rfl⟩,
   c8_save_answer_no_range_validation sampleState "u1" "2025-01-15"
     (PyKey.int 999) "A" 4 sampleAttempt (by decide) rfl rfl⟩

end QuizApp
